import Mathlib

/-!
Verification of the lerobot remote-teleoperation networking slice: host
discovery, the conflated (latest-value-only) exchange channel, the
follower command watchdog, the camera-frame encode/decode paths and the
connection-state guards.  Each definition is a shallow embedding of a
function in the repository; socket and OS effects are parametrised by
oracles (which hosts accept a connection, what messages are pending,
whether an encode succeeds), and the claims of the specification are
stated and settled against those embeddings.
-/

set_option maxHeartbeats 1000000

namespace LeRobot

/-! ## JSON-style field maps

`Command` and `Observation` values are JSON objects: ordered maps from
field names to values.  A value is numeric, a raw camera frame (abstract
identifier standing for an ndarray), or a string (base64 payloads). -/

inductive FieldValue
  | num (q : ℚ)
  | frame (f : ℕ)
  | str (s : String)
deriving DecidableEq, Repr

abbrev Obs := List (String × FieldValue)

/-- Dictionary lookup `obs[k]` / `obs.get(k)` on an association list. -/
def lookupField : Obs → String → Option FieldValue
  | [], _ => none
  | (k', v) :: rest, k => if k' = k then some v else lookupField rest k

/-- Dictionary assignment `obs[k] = v`: replaces the value at `k` in place,
appends when `k` is absent. -/
def updateField : Obs → String → FieldValue → Obs
  | [], k, v => [(k, v)]
  | (k', v') :: rest, k, v =>
      if k' = k then (k, v) :: rest else (k', v') :: updateField rest k v

/-- Dictionary removal `obs.pop(k, None)`: a JSON object binds each key
at most once, so the embedding erases every binding at `k`; no-op when
`k` is absent. -/
def removeField : Obs → String → Obs
  | [], _ => []
  | (k', v') :: rest, k =>
      if k' = k then removeField rest k else (k', v') :: removeField rest k

/-! ## Discovery Service: `network_utils.discover_host`

`discover_host` iterates the hosts of the CIDR range in address order
(`ipaddress.ip_network(...).hosts()`), attempts a TCP connection to each
with a short per-host timeout, returns the first address that accepts,
and returns `None` when the range is exhausted.  The range is embedded as
the ordered host list and the network as an acceptance oracle. -/

/-- `network_utils.discover_host`, lines 30-40: scan `hosts` in order and
return the first one the `accepts` oracle lets connect; `none` when the
range is exhausted. -/
def discover_host (accepts : String → Bool) : List String → Option String
  | [] => none
  | ip :: rest => if accepts ip then some ip else discover_host accepts rest

/-- Number of connection attempts `discover_host` makes before returning:
each attempt costs at most the per-host `timeout`, so wall-clock cost is
bounded by `timeout * discover_probe_count`. -/
def discover_probe_count (accepts : String → Bool) : List String → ℕ
  | [] => 0
  | ip :: rest => 1 + if accepts ip then 0 else discover_probe_count accepts rest

/-! ## Exchange Channel: conflated slot and the client poll

Both ZMQ sockets are opened with `ZMQ_CONFLATE = 1`
(`so100_follower_server.py` lines 57-62, `so100_follower_client.py`
lines 101-105): the socket buffers at most one unread message, and a new
send overwrites the unconsumed one.  The buffer is embedded as the list
of pending messages, most recent last. -/

/-- A send on a conflated socket: the single-slot buffer is overwritten,
never appended to. -/
def conflate_send (_slot : List String) (m : String) : List String := [m]

/-- A sequence of sends on a conflated socket, applied in order. -/
def sendAll (slot : List String) (msgs : List String) : List String :=
  msgs.foldl conflate_send slot

/-- The drain loop inside `_poll_and_get_latest_message`
(`so100_follower_client.py` lines 130-137): `recv_string(NOBLOCK)` until
`zmq.Again`, keeping the last message received. -/
def drain_latest : List String → Option String → Option String
  | [], acc => acc
  | m :: rest, _ => drain_latest rest (some m)

/-- `SO100FollowerClient._poll_and_get_latest_message`
(`so100_follower_client.py` lines 118-137): poll the observation socket
for `polling_timeout_ms`; a poll error or no readable event within the
timeout yields `none`, otherwise the buffer is drained and the last
pending message returned.  `pollError` embeds the caught `zmq.ZMQError`;
`pending` is the buffered message list when the poll returns. -/
def _poll_and_get_latest_message (pollError : Bool) (pending : List String) :
    Option String :=
  if pollError then none
  else if pending.isEmpty then none
  else drain_latest pending none

/-! ## Client: `SO100FollowerClient`

State and public interface of the client
(`so100_follower_client.py`).  Network effects are parametrised: the
pending observation buffer, the JSON parse of a received message, the
base64+JPEG image decode, and the outcome of server discovery. -/

/-- The errors the client raises, from `lerobot.common.errors`. -/
inductive RError
  | deviceAlreadyConnected
  | deviceNotConnected
deriving DecidableEq, Repr

/-- Mutable state of `SO100FollowerClient` relevant to the claims:
the `_is_connected` flag and the `last_observation` cache
(`so100_follower_client.py` lines 54-55). -/
structure ClientState where
  _is_connected : Bool
  last_observation : Obs
deriving DecidableEq, Repr

/-- `SO100FollowerClient._decode_image` (`so100_follower_client.py` lines
139-149): an empty payload returns `None` immediately; otherwise the
base64/JPEG pipeline runs, and any decode exception is caught and also
yields `None`.  `decode` is the oracle for that pipeline (`none` embeds
both an exception and `cv2.imdecode` returning no frame). -/
def _decode_image (decode : String → Option ℕ) (image_b64 : String) : Option ℕ :=
  if image_b64 = "" then none else decode image_b64

/-- The string handed to `_decode_image` for a camera field:
`obs.get(cam_name, "")`, where a non-string JSON value also fails the
base64 decode and is embedded as the empty payload. -/
def cameraPayload (obs : Obs) (cam : String) : String :=
  match lookupField obs cam with
  | some (FieldValue.str s) => s
  | _ => ""

/-- The camera loop of `get_observation` (`so100_follower_client.py`
lines 165-170): for every configured camera field, decode its payload;
a decoded frame replaces the field, a failed decode removes the field
(`obs.pop(cam_name, None)`). -/
def process_cameras (decode : String → Option ℕ) (cams : List String)
    (obs : Obs) : Obs :=
  cams.foldl (fun acc cam =>
    match _decode_image decode (cameraPayload acc cam) with
    | some f => updateField acc cam (FieldValue.frame f)
    | none => removeField acc cam) obs

/-- `SO100FollowerClient.get_observation` (`so100_follower_client.py`
lines 151-172).  Raises `DeviceNotConnectedError` when not connected;
returns the cached `last_observation` unchanged when the poll yields no
message or JSON parsing fails; otherwise processes camera fields, stores
the result as the new `last_observation` and returns it.  `parse` is the
`json.loads` oracle (`none` embeds `JSONDecodeError`). -/
def get_observation (s : ClientState) (pollError : Bool) (pending : List String)
    (parse : String → Option Obs) (decode : String → Option ℕ)
    (cams : List String) : Except RError (Obs × ClientState) :=
  if !s._is_connected then .error .deviceNotConnected
  else
    match _poll_and_get_latest_message pollError pending with
    | none => .ok (s.last_observation, s)
    | some msg =>
        match parse msg with
        | none => .ok (s.last_observation, s)
        | some obs =>
            let obs' := process_cameras decode cams obs
            .ok (obs', { s with last_observation := obs' })

/-- `SO100FollowerClient.connect` (`so100_follower_client.py` lines
88-113).  Raises `DeviceAlreadyConnectedError` when already connected;
raises `DeviceNotConnectedError` when discovery is needed and fails, or
when no first observation arrives within `connect_timeout_s`; otherwise
sets `_is_connected`.  `remoteKnown` embeds `remote_ip is not None`,
`discovered` the `discover_server` outcome, `firstObsReady` the bounded
poll for the first observation. -/
def connect (s : ClientState) (remoteKnown discovered firstObsReady : Bool) :
    Except RError ClientState :=
  if s._is_connected then .error .deviceAlreadyConnected
  else if !remoteKnown && !discovered then .error .deviceNotConnected
  else if !firstObsReady then .error .deviceNotConnected
  else .ok { s with _is_connected := true }

/-- `SO100FollowerClient.send_action` (`so100_follower_client.py` lines
174-178): raises `DeviceNotConnectedError` when not connected, otherwise
sends the serialized action and returns it. -/
def send_action (s : ClientState) (action : Obs) :
    Except RError (Obs × ClientState) :=
  if !s._is_connected then .error .deviceNotConnected
  else .ok (action, s)

/-- `SO100FollowerClient.disconnect` (`so100_follower_client.py` lines
183-189): raises `DeviceNotConnectedError` when not connected, otherwise
closes both sockets, terminates the context and clears `_is_connected`. -/
def disconnect (s : ClientState) : Except RError ClientState :=
  if !s._is_connected then .error .deviceNotConnected
  else .ok { s with _is_connected := false }

/-! ## Profile A follower: `so100_follower_server.main`

One iteration of the control loop (`so100_follower_server.py` lines
113-150): non-blocking command receive, watchdog check, observation
capture, camera encoding, non-blocking observation send.  Times are
rationals in seconds; per-tick I/O outcomes are inputs. -/

/-- The watchdog variables of the Profile A follower loop
(`so100_follower_server.py` lines 106-107): `last_cmd_time` and
`watchdog_active`. -/
structure WatchdogState where
  last_cmd_time : ℚ
  watchdog_active : Bool
deriving DecidableEq, Repr

/-- Per-tick inputs of the Profile A follower loop: the command message
delivered by `recv_string(NOBLOCK)` (`none` embeds `zmq.Again`), the two
`time.time()` readings (at lines 118 and 126), the raw observation
returned by `robot.get_observation()`, and whether the non-blocking
observation send succeeds (`false` embeds `zmq.Again`). -/
structure TickInput where
  cmdMsg : Option String
  tRecv : ℚ
  tCheck : ℚ
  rawObs : Obs
  sendOk : Bool
deriving DecidableEq, Repr

/-- Observable events of one Profile A follower tick.  `handshake_sent`
is in the vocabulary because the specification's handshake invariant
speaks of it; the loop below shows it is never produced. -/
inductive EventA
  | no_command_available
  | command_applied (cmd : Obs)
  | fetch_error
  | staleness_warning
  | observation_sent (obs : Obs)
  | observation_dropped
  | handshake_sent
deriving DecidableEq, Repr

/-- One iteration of the camera-encoding loop of the follower tick
(`so100_follower_server.py` lines 135-142): run `cv2.imencode` + base64
on the raw frame stored at the camera key; on success the field becomes
the base64 string, on a falsy encode status the field is set to the
empty string — the key stays in the mapping either way.  A key whose
value is not a raw frame is left untouched.  `encode` is the
imencode/base64 oracle. -/
def encode_camera_field (encode : ℕ → Option String) (obs : Obs)
    (cam : String) : Obs :=
  match lookupField obs cam with
  | some (FieldValue.frame f) =>
      match encode f with
      | some b64 => updateField obs cam (FieldValue.str b64)
      | none => updateField obs cam (FieldValue.str "")
  | _ => obs

/-- The camera-encoding section of the follower tick
(`so100_follower_server.py` lines 135-142): `encode_camera_field`
applied to every camera key in order. -/
def encode_cameras (encode : ℕ → Option String) (cams : List String)
    (obs : Obs) : Obs :=
  cams.foldl (encode_camera_field encode) obs

/-- The command-receive section of the follower tick
(`so100_follower_server.py` lines 114-125): a received, parseable
message is applied via `robot.send_action`, `last_cmd_time` is refreshed
to the current `time.time()` and `watchdog_active` is cleared;
`zmq.Again` logs "No command available" only while the watchdog has not
tripped; a parse or apply failure logs an error and changes nothing. -/
def recv_step (parse : String → Option Obs) (s : WatchdogState)
    (inp : TickInput) : WatchdogState × List EventA :=
  match inp.cmdMsg with
  | none =>
      (s, if s.watchdog_active then [] else [EventA.no_command_available])
  | some m =>
      match parse m with
      | some cmd => (⟨inp.tRecv, false⟩, [EventA.command_applied cmd])
      | none => (s, [EventA.fetch_error])

/-- The watchdog section of the follower tick
(`so100_follower_server.py` lines 126-131): if more than
`watchdog_timeout_ms` elapsed since the last command and the watchdog is
not already active, emit the staleness warning (the returned flag) and
set it active. -/
def watchdog_step (watchdog_timeout_ms : ℚ) (s : WatchdogState)
    (tCheck : ℚ) : WatchdogState × Bool :=
  let trip :=
    decide (tCheck - s.last_cmd_time > watchdog_timeout_ms / 1000)
      && !s.watchdog_active
  (if trip then { s with watchdog_active := true } else s, trip)

/-- One tick of the Profile A follower loop (`so100_follower_server.py`
lines 113-150), returning the updated watchdog state and the events of
the tick: command receive, watchdog check, camera encoding, then the
non-blocking observation send which drops on `zmq.Again`. -/
def followerA_tick (parse : String → Option Obs) (encode : ℕ → Option String)
    (cams : List String) (watchdog_timeout_ms : ℚ)
    (s : WatchdogState) (inp : TickInput) : WatchdogState × List EventA :=
  let r := recv_step parse s inp
  let wd := watchdog_step watchdog_timeout_ms r.1 inp.tCheck
  let warnEvents := if wd.2 then [EventA.staleness_warning] else []
  let obs := encode_cameras encode cams inp.rawObs
  let sendEvents :=
    if inp.sendOk then [EventA.observation_sent obs]
    else [EventA.observation_dropped]
  (wd.1, r.2 ++ warnEvents ++ sendEvents)

/-- The Profile A follower loop run over a list of tick inputs,
threading the watchdog state and concatenating each tick's events. -/
def followerA_run (parse : String → Option Obs) (encode : ℕ → Option String)
    (cams : List String) (watchdog_timeout_ms : ℚ)
    (s : WatchdogState) : List TickInput → WatchdogState × List EventA
  | [] => (s, [])
  | inp :: rest =>
      let step := followerA_tick parse encode cams watchdog_timeout_ms s inp
      let next := followerA_run parse encode cams watchdog_timeout_ms step.1 rest
      (next.1, step.2 ++ next.2)

/-- Number of staleness warnings in an event list. -/
def staleWarnCount (events : List EventA) : ℕ :=
  (events.filter (· = EventA.staleness_warning)).length

/-! ## Profile B: `follower_server.main` and `leader_client.main`

Line-framed stream session.  The follower sends one newline-terminated
JSON handshake immediately after `accept`, then reads command lines in a
loop; the leader reads the handshake line before its send loop. -/

/-- Wire events of the Profile B follower session. -/
inductive EventB
  | handshake_sent
  | command_processed (cmd : Obs)
  | command_skipped
deriving DecidableEq, Repr

/-- Wire events of the Profile B leader session. -/
inductive EventL
  | handshake_received
  | command_sent (cmd : Obs)
deriving DecidableEq, Repr

/-- The Profile B follower session after `accept`
(`scripts/follower_server.py` lines 50-94): first `sendall` the
handshake line — on an `OSError` there, close everything and return
without reading any command — then process each received line: a
malformed line is skipped and the loop continues, a well-formed one is
applied via `robot.send_action`. -/
def followerB_events (handshakeSendOk : Bool) (parse : String → Option Obs)
    (lines : List String) : List EventB :=
  if handshakeSendOk then
    EventB.handshake_sent ::
      lines.map (fun l =>
        match parse l with
        | some cmd => EventB.command_processed cmd
        | none => EventB.command_skipped)
  else []

/-- The Profile B leader session (`scripts/leader_client.py` lines
48-77): read up to the first newline — a connection closed during the
handshake raises and sends nothing — parse the handshake line — a
`JSONDecodeError` raises and sends nothing — then send one command line
per tick.  `handshakeLine` is `none` when the peer closes before a full
line arrives. -/
def leaderB_events (handshakeLine : Option String)
    (parse : String → Option Obs) (actions : List Obs) : List EventL :=
  match handshakeLine with
  | none => []
  | some l =>
      match parse l with
      | none => []
      | some _ => EventL.handshake_received :: actions.map EventL.command_sent

/-! ## Control-loop timing

Both steady-state loops compute the end-of-tick wait from the current
tick's own start timestamp. -/

/-- The sleep at the end of each Profile A follower tick
(`so100_follower_server.py` lines 149-150):
`time.sleep(max(1 / max_loop_freq_hz - elapsed, 0))` with
`elapsed = time.time() - loop_start_time`. -/
def follower_tick_sleep (max_loop_freq_hz : ℚ) (loop_start_time now : ℚ) : ℚ :=
  max (1 / max_loop_freq_hz - (now - loop_start_time)) 0

/-- Modelled from the spec: `busy_wait` (from
`lerobot.common.utils.robot_utils`, not part of this slice's sources)
waits for the requested duration and never for a negative one — "the
loop sleeps for max(1/f - elapsed, 0)". -/
def busy_wait (seconds : ℚ) : ℚ := max seconds 0

/-- The wait at the end of each Profile B leader tick
(`scripts/leader_client.py` line 77):
`busy_wait(1 / cfg.fps - (time.perf_counter() - loop_start))`. -/
def leader_tick_wait (fps : ℚ) (loop_start now : ℚ) : ℚ :=
  busy_wait (1 / fps - (now - loop_start))

/-- Tick-start times of a loop that, each tick, does `work i` seconds of
compute and then sleeps `follower_tick_sleep`: the next tick starts when
the sleep ends.  Used to show the scheduling accumulates no drift. -/
def loop_finish_time (f : ℚ) (start : ℚ) : List ℚ → ℚ
  | [] => start
  | w :: rest =>
      loop_finish_time f (start + w + follower_tick_sleep f start (start + w)) rest

/-! ## Loop termination and cleanup -/

/-- Why the Profile A follower loop stopped. -/
inductive ExitCause
  | interrupt
  | fatalError
  | sessionTimeExpired
deriving DecidableEq, Repr

/-- The loop-continuation condition of the Profile A follower
(`so100_follower_server.py` line 112: `while duration <
host.connection_time_s`), together with the two exceptional exits: a
`KeyboardInterrupt` or an exception escaping the tick body. -/
def loop_continues (duration connection_time_s : ℚ)
    (interrupted fatal : Bool) : Bool :=
  !interrupted && !fatal && decide (duration < connection_time_s)

/-- The exit cause of the Profile A follower loop for a given loop-head
state; `none` means the loop keeps running. -/
def followerA_exit_cause (duration connection_time_s : ℚ)
    (interrupted fatal : Bool) : Option ExitCause :=
  if interrupted then some ExitCause.interrupt
  else if fatal then some ExitCause.fatalError
  else if connection_time_s ≤ duration then some ExitCause.sessionTimeExpired
  else none

/-- `SO100FollowerServer.disconnect` (`so100_follower_server.py` lines
86-92): stop the discovery thread, close the discovery socket, close
both ZMQ sockets, terminate the ZMQ context. -/
def host_disconnect_actions : List String :=
  ["discovery_socket.close", "zmq_observation_socket.close",
   "zmq_cmd_socket.close", "zmq_context.term"]

/-- The cleanup the Profile A follower `main` performs on loop exit
(`so100_follower_server.py` lines 152-157): the `finally` block runs
`robot.disconnect()` then `host.disconnect()` whatever the exit cause
(normal expiry, interrupt, or escaping error). -/
def followerA_cleanup (_cause : ExitCause) : List String :=
  "robot.disconnect" :: host_disconnect_actions

/-- The cleanup the Profile B follower `main` performs on loop exit
(`scripts/follower_server.py` lines 89-94): the `finally` block runs
`conn.close()`, `server.close()`, `robot.disconnect()` whatever the exit
cause. -/
def followerB_cleanup (_interrupted : Bool) : List String :=
  ["conn.close", "server.close", "robot.disconnect"]

/-! ## Helper lemmas: dictionary operations -/

theorem lookupField_updateField_self (obs : Obs) (k : String) (v : FieldValue) :
    lookupField (updateField obs k v) k = some v := by
  induction obs with
  | nil => simp [updateField, lookupField]
  | cons p rest ih =>
      obtain ⟨k', v'⟩ := p
      by_cases h : k' = k
      · simp [updateField, lookupField, h]
      · simp [updateField, lookupField, h, ih]

theorem lookupField_updateField_ne (obs : Obs) (k k' : String) (v : FieldValue)
    (h : k ≠ k') : lookupField (updateField obs k v) k' = lookupField obs k' := by
  induction obs with
  | nil => simp [updateField, lookupField, h]
  | cons p rest ih =>
      obtain ⟨k₀, v₀⟩ := p
      by_cases hk : k₀ = k
      · subst hk
        simp [updateField, lookupField, h]
      · simp [updateField, lookupField, hk, ih]

theorem lookupField_removeField_self (obs : Obs) (k : String) :
    lookupField (removeField obs k) k = none := by
  induction obs with
  | nil => simp [removeField, lookupField]
  | cons p rest ih =>
      obtain ⟨k', v'⟩ := p
      by_cases h : k' = k
      · simp [removeField, h, ih]
      · simp [removeField, lookupField, h, ih]

theorem lookupField_removeField_ne (obs : Obs) (k k' : String)
    (h : k ≠ k') : lookupField (removeField obs k) k' = lookupField obs k' := by
  induction obs with
  | nil => simp [removeField]
  | cons p rest ih =>
      obtain ⟨k₀, v₀⟩ := p
      by_cases hk : k₀ = k
      · subst hk
        simp [removeField, lookupField, h, ih]
      · simp [removeField, lookupField, hk, ih]

/-! ## Claim C5: active-scan discovery -/

/-- C5: `discover_host` probes the hosts of the range in address order
and returns the first host that accepts a connection; an exhausted range
yields `none`; a range with exactly one listening host yields that host;
the number of connection attempts — each bounded by the per-host
timeout — never exceeds the size of the range, and equals it when no
host listens. -/
theorem discover_host_first_accepting (accepts : String → Bool)
    (hosts : List String) :
    discover_host accepts hosts = hosts.find? accepts
  ∧ ((∀ h ∈ hosts, accepts h = false) → discover_host accepts hosts = none)
  ∧ (∀ target, target ∈ hosts → (∀ h, accepts h = true ↔ h = target) →
      discover_host accepts hosts = some target)
  ∧ discover_probe_count accepts hosts ≤ hosts.length
  ∧ ((∀ h ∈ hosts, accepts h = false) →
      discover_probe_count accepts hosts = hosts.length) := by
  refine ⟨?_, ?_, ?_, ?_, ?_⟩
  · induction hosts with
    | nil => rfl
    | cons ip rest ih =>
        by_cases h : accepts ip
        · simp [discover_host, List.find?, h]
        · simp only [Bool.not_eq_true] at h
          simp [discover_host, List.find?, h, ih]
  · intro hnone
    induction hosts with
    | nil => rfl
    | cons ip rest ih =>
        have h1 : accepts ip = false := hnone ip (List.mem_cons_self ip rest)
        simp [discover_host, h1]
        exact ih fun h hh => hnone h (List.mem_cons_of_mem ip hh)
  · intro target hmem hunique
    induction hosts with
    | nil => cases hmem
    | cons ip rest ih =>
        by_cases h : ip = target
        · subst h
          simp [discover_host, (hunique ip).mpr rfl]
        · have h1 : accepts ip = false := by
            cases hacc : accepts ip with
            | false => rfl
            | true => exact absurd ((hunique ip).mp hacc) h
          have h2 : target ∈ rest := by
            rcases List.mem_cons.mp hmem with h' | h'
            · exact absurd h'.symm h
            · exact h'
          simp [discover_host, h1, ih h2]
  · induction hosts with
    | nil => simp [discover_probe_count]
    | cons ip rest ih =>
        by_cases h : accepts ip
        · simp [discover_probe_count, h]
        · simp only [Bool.not_eq_true] at h
          simp [discover_probe_count, h]
          omega
  · intro hnone
    induction hosts with
    | nil => rfl
    | cons ip rest ih =>
        have h1 : accepts ip = false := hnone ip (List.mem_cons_self ip rest)
        simp [discover_probe_count, h1]
        rw [ih fun h hh => hnone h (List.mem_cons_of_mem ip hh)]
        omega

/-- Witness for C5: in a three-host range where only `10.0.0.2` listens,
the scan returns `10.0.0.2`, and an all-refusing range is exhausted. -/
theorem discover_host_first_accepting_witness :
    discover_host (fun h => h = "10.0.0.2")
      ["10.0.0.1", "10.0.0.2", "10.0.0.3"] = some "10.0.0.2"
  ∧ discover_host (fun _ => false) ["10.0.0.1", "10.0.0.2"] = none := by
  constructor
  · exact (discover_host_first_accepting (fun h => h = "10.0.0.2")
      ["10.0.0.1", "10.0.0.2", "10.0.0.3"]).2.2.1 "10.0.0.2" (by decide)
      (fun h => by simp)
  · exact (discover_host_first_accepting (fun _ => false)
      ["10.0.0.1", "10.0.0.2"]).2.1 (fun h _ => rfl)

/-! ## Claim C1: conflated latest-value delivery -/

theorem drain_latest_eq (l : List String) :
    ∀ acc, drain_latest l acc = l.getLast?.or acc := by
  induction l with
  | nil => intro acc; simp [drain_latest]
  | cons m rest ih =>
      intro acc
      cases rest with
      | nil => simp [drain_latest]
      | cons b t =>
          obtain ⟨y, hy⟩ : ∃ y, (b :: t).getLast? = some y :=
            Option.isSome_iff_exists.mp
              (List.getLast?_isSome.mpr (List.cons_ne_nil b t))
          calc drain_latest (m :: b :: t) acc
              = drain_latest (b :: t) (some m) := rfl
            _ = ((b :: t).getLast?).or (some m) := ih (some m)
            _ = some y := by rw [hy]; rfl
            _ = ((m :: b :: t).getLast?).or acc := by
                rw [List.getLast?_cons_cons, hy]; rfl

theorem sendAll_eq : ∀ (msgs slot : List String), sendAll slot msgs =
    match msgs.getLast? with | none => slot | some m => [m] := by
  intro msgs
  induction msgs with
  | nil => intro slot; rfl
  | cons m rest ih =>
      intro slot
      have h1 : sendAll slot (m :: rest) = sendAll [m] rest := rfl
      rw [h1, ih [m]]
      cases rest with
      | nil => rfl
      | cons b t =>
          obtain ⟨y, hy⟩ : ∃ y, (b :: t).getLast? = some y :=
            Option.isSome_iff_exists.mp
              (List.getLast?_isSome.mpr (List.cons_ne_nil b t))
          simp [List.getLast?_cons_cons, hy]

/-- C1: when the bounded poll sees data, the client's drain loop returns
exactly the most recent message buffered on the socket; for any sequence
of sends on the conflated observation socket it returns exactly the last
sent message, never an earlier one; and it returns `none` when nothing
arrived within `polling_timeout_ms` (or the poll errored). -/
theorem poll_and_get_latest_message_spec (pollError : Bool)
    (slot msgs pending : List String) :
    _poll_and_get_latest_message false pending = pending.getLast?
  ∧ (msgs ≠ [] →
      _poll_and_get_latest_message false (sendAll slot msgs) = msgs.getLast?)
  ∧ _poll_and_get_latest_message pollError [] = none := by
  refine ⟨?_, ?_, ?_⟩
  · cases pending with
    | nil => rfl
    | cons a l =>
        simp [_poll_and_get_latest_message, drain_latest_eq]
  · intro hne
    rw [sendAll_eq]
    cases msgs with
    | nil => exact absurd rfl hne
    | cons m rest =>
        obtain ⟨y, hy⟩ : ∃ y, (m :: rest).getLast? = some y :=
          Option.isSome_iff_exists.mp
            (List.getLast?_isSome.mpr (List.cons_ne_nil m rest))
        simp [hy, _poll_and_get_latest_message, drain_latest_eq]
  · cases pollError <;> rfl

/-- Witness for C1: after the sends "a", "b", "c" on the conflated
socket, one receive returns exactly "c", and an empty buffer yields no
data. -/
theorem poll_and_get_latest_message_spec_witness :
    _poll_and_get_latest_message false (sendAll [] ["a", "b", "c"]) = some "c"
  ∧ _poll_and_get_latest_message false [] = none := by
  constructor
  · have h := (poll_and_get_latest_message_spec false [] ["a", "b", "c"] []).2.1
      (List.cons_ne_nil "a" ["b", "c"])
    rw [h]
    decide
  · exact (poll_and_get_latest_message_spec false [] [] []).2.2

/-! ## Helper lemmas: the client camera loop -/

theorem process_cameras_cons (decode : String → Option ℕ) (c : String)
    (rest : List String) (obs : Obs) :
    process_cameras decode (c :: rest) obs =
      process_cameras decode rest
        (match _decode_image decode (cameraPayload obs c) with
         | some f => updateField obs c (FieldValue.frame f)
         | none => removeField obs c) := rfl

theorem process_cameras_lookup_none (decode : String → Option ℕ) :
    ∀ (cams : List String) (obs : Obs) (cam : String),
      lookupField obs cam = none →
      lookupField (process_cameras decode cams obs) cam = none := by
  intro cams
  induction cams with
  | nil => intro obs cam h; exact h
  | cons c rest ih =>
      intro obs cam h
      rw [process_cameras_cons]
      by_cases hc : c = cam
      · subst hc
        have hdec : _decode_image decode (cameraPayload obs c) = none := by
          simp [cameraPayload, h, _decode_image]
        rw [hdec]
        exact ih _ c (lookupField_removeField_self obs c)
      · cases hd : _decode_image decode (cameraPayload obs c) with
        | some g =>
            exact ih _ cam ((lookupField_updateField_ne obs c cam _ hc).trans h)
        | none =>
            exact ih _ cam ((lookupField_removeField_ne obs c cam hc).trans h)

theorem process_cameras_lookup_not_mem (decode : String → Option ℕ) :
    ∀ (cams : List String) (obs : Obs) (k : String), k ∉ cams →
      lookupField (process_cameras decode cams obs) k = lookupField obs k := by
  intro cams
  induction cams with
  | nil => intro obs k _; rfl
  | cons c rest ih =>
      intro obs k hk
      have hck : c ≠ k := fun h => hk (h ▸ List.mem_cons_self c rest)
      have hkrest : k ∉ rest := fun h => hk (List.mem_cons_of_mem c h)
      rw [process_cameras_cons]
      cases hd : _decode_image decode (cameraPayload obs c) with
      | some g =>
          exact (ih _ k hkrest).trans (lookupField_updateField_ne obs c k _ hck)
      | none =>
          exact (ih _ k hkrest).trans (lookupField_removeField_ne obs c k hck)

theorem process_cameras_failed_removed (decode : String → Option ℕ) :
    ∀ (cams : List String) (obs : Obs) (cam : String), cam ∈ cams →
      _decode_image decode (cameraPayload obs cam) = none →
      lookupField (process_cameras decode cams obs) cam = none := by
  intro cams
  induction cams with
  | nil => intro obs cam hmem; cases hmem
  | cons c rest ih =>
      intro obs cam hmem hdec
      rw [process_cameras_cons]
      by_cases hc : c = cam
      · subst hc
        rw [hdec]
        exact process_cameras_lookup_none decode rest _ c
          (lookupField_removeField_self obs c)
      · have hmem' : cam ∈ rest := by
          rcases List.mem_cons.mp hmem with h | h
          · exact absurd h.symm hc
          · exact h
        cases hd : _decode_image decode (cameraPayload obs c) with
        | some g =>
            have hpay : cameraPayload (updateField obs c (FieldValue.frame g)) cam
                = cameraPayload obs cam := by
              simp [cameraPayload, lookupField_updateField_ne obs c cam _ hc]
            exact ih _ cam hmem' (by rw [hpay]; exact hdec)
        | none =>
            have hpay : cameraPayload (removeField obs c) cam
                = cameraPayload obs cam := by
              simp [cameraPayload, lookupField_removeField_ne obs c cam hc]
            exact ih _ cam hmem' (by rw [hpay]; exact hdec)

theorem process_cameras_decoded_frame (decode : String → Option ℕ) :
    ∀ (cams : List String) (obs : Obs) (cam : String) (f : ℕ),
      cams.Nodup → cam ∈ cams →
      _decode_image decode (cameraPayload obs cam) = some f →
      lookupField (process_cameras decode cams obs) cam =
        some (FieldValue.frame f) := by
  intro cams
  induction cams with
  | nil => intro obs cam f _ hmem; cases hmem
  | cons c rest ih =>
      intro obs cam f hnd hmem hdec
      rw [process_cameras_cons]
      by_cases hc : c = cam
      · subst hc
        rw [hdec]
        exact (process_cameras_lookup_not_mem decode rest _ c
          (List.nodup_cons.mp hnd).1).trans (lookupField_updateField_self obs c _)
      · have hmem' : cam ∈ rest := by
          rcases List.mem_cons.mp hmem with h | h
          · exact absurd h.symm hc
          · exact h
        cases hd : _decode_image decode (cameraPayload obs c) with
        | some g =>
            have hpay : cameraPayload (updateField obs c (FieldValue.frame g)) cam
                = cameraPayload obs cam := by
              simp [cameraPayload, lookupField_updateField_ne obs c cam _ hc]
            exact ih _ cam f (List.nodup_cons.mp hnd).2 hmem' (by rw [hpay]; exact hdec)
        | none =>
            have hpay : cameraPayload (removeField obs c) cam
                = cameraPayload obs cam := by
              simp [cameraPayload, lookupField_removeField_ne obs c cam hc]
            exact ih _ cam f (List.nodup_cons.mp hnd).2 hmem' (by rw [hpay]; exact hdec)

/-! ## Claim C6: last-known-value reuse on no-data -/

/-- C6: with the client connected, `get_observation` returns the stored
`last_observation` and an unchanged state — and raises nothing — both
when the bounded poll yields no new message and when the received
message fails JSON parsing; the call never errors while connected, and
`last_observation` changes only when a well-formed message arrived. -/
theorem get_observation_last_known (s : ClientState) (pollError : Bool)
    (pending : List String) (parse : String → Option Obs)
    (decode : String → Option ℕ) (cams : List String)
    (hconn : s._is_connected = true) :
    (_poll_and_get_latest_message pollError pending = none →
      get_observation s pollError pending parse decode cams =
        .ok (s.last_observation, s))
  ∧ (∀ m, _poll_and_get_latest_message pollError pending = some m →
      parse m = none →
      get_observation s pollError pending parse decode cams =
        .ok (s.last_observation, s))
  ∧ (∃ r, get_observation s pollError pending parse decode cams = .ok r)
  ∧ (∀ r s', get_observation s pollError pending parse decode cams = .ok (r, s') →
      s'.last_observation ≠ s.last_observation →
      ∃ m obs, _poll_and_get_latest_message pollError pending = some m ∧
        parse m = some obs) := by
  refine ⟨?_, ?_, ?_, ?_⟩
  · intro hpoll
    simp [get_observation, hconn, hpoll]
  · intro m hpoll hparse
    simp [get_observation, hconn, hpoll, hparse]
  · cases hpoll : _poll_and_get_latest_message pollError pending with
    | none => exact ⟨(s.last_observation, s), by simp [get_observation, hconn, hpoll]⟩
    | some m =>
        cases hparse : parse m with
        | none =>
            exact ⟨(s.last_observation, s),
              by simp [get_observation, hconn, hpoll, hparse]⟩
        | some obs =>
            exact ⟨(process_cameras decode cams obs,
                { s with last_observation := process_cameras decode cams obs }),
              by simp [get_observation, hconn, hpoll, hparse]⟩
  · intro r s' hok hne
    cases hpoll : _poll_and_get_latest_message pollError pending with
    | none =>
        have heq : get_observation s pollError pending parse decode cams =
            .ok (s.last_observation, s) := by simp [get_observation, hconn, hpoll]
        rw [heq] at hok
        simp only [Except.ok.injEq, Prod.mk.injEq] at hok
        exact absurd (by rw [← hok.2]) hne
    | some m =>
        cases hparse : parse m with
        | none =>
            have heq : get_observation s pollError pending parse decode cams =
                .ok (s.last_observation, s) := by
              simp [get_observation, hconn, hpoll, hparse]
            rw [heq] at hok
            simp only [Except.ok.injEq, Prod.mk.injEq] at hok
            exact absurd (by rw [← hok.2]) hne
        | some obs => exact ⟨m, obs, rfl, hparse⟩

/-- Witness for C6: a connected client with an empty observation buffer
returns its cached last observation unchanged. -/
theorem get_observation_last_known_witness :
    get_observation ⟨true, [("x.pos", FieldValue.num 1)]⟩ false []
      (fun _ => none) (fun _ => none) [] =
      .ok ([("x.pos", FieldValue.num 1)], ⟨true, [("x.pos", FieldValue.num 1)]⟩) :=
  (get_observation_last_known ⟨true, [("x.pos", FieldValue.num 1)]⟩ false []
    (fun _ => none) (fun _ => none) [] rfl).1 rfl

/-! ## Claim C7: receive-side image decode failure is field-absent -/

/-- C7: in the client's camera loop, a configured camera field whose
payload is empty or fails the base64/JPEG decode is removed from the
returned observation; fields outside the camera set are untouched, a
successfully decoded camera field is replaced by its frame, the
processed observation is exactly what `get_observation` returns for a
well-formed message, and the call always completes with a result while
connected — one bad field never aborts it. -/
theorem decode_failure_field_absent (s : ClientState) (pollError : Bool)
    (pending : List String) (parse : String → Option Obs)
    (decode : String → Option ℕ) (cams : List String)
    (hconn : s._is_connected = true) :
    (∀ obs cam, cam ∈ cams →
      _decode_image decode (cameraPayload obs cam) = none →
      lookupField (process_cameras decode cams obs) cam = none)
  ∧ (∀ obs k, k ∉ cams →
      lookupField (process_cameras decode cams obs) k = lookupField obs k)
  ∧ (∀ obs cam f, cams.Nodup → cam ∈ cams →
      _decode_image decode (cameraPayload obs cam) = some f →
      lookupField (process_cameras decode cams obs) cam =
        some (FieldValue.frame f))
  ∧ (∀ m obs, _poll_and_get_latest_message pollError pending = some m →
      parse m = some obs →
      get_observation s pollError pending parse decode cams =
        .ok (process_cameras decode cams obs,
             { s with last_observation := process_cameras decode cams obs }))
  ∧ (∃ r, get_observation s pollError pending parse decode cams = .ok r) := by
  refine ⟨?_, ?_, ?_, ?_, ?_⟩
  · intro obs cam hmem hdec
    exact process_cameras_failed_removed decode cams obs cam hmem hdec
  · intro obs k hk
    exact process_cameras_lookup_not_mem decode cams obs k hk
  · intro obs cam f hnd hmem hdec
    exact process_cameras_decoded_frame decode cams obs cam f hnd hmem hdec
  · intro m obs hpoll hparse
    simp [get_observation, hconn, hpoll, hparse]
  · cases hpoll : _poll_and_get_latest_message pollError pending with
    | none => exact ⟨(s.last_observation, s), by simp [get_observation, hconn, hpoll]⟩
    | some m =>
        cases hparse : parse m with
        | none =>
            exact ⟨(s.last_observation, s),
              by simp [get_observation, hconn, hpoll, hparse]⟩
        | some obs =>
            exact ⟨(process_cameras decode cams obs,
                { s with last_observation := process_cameras decode cams obs }),
              by simp [get_observation, hconn, hpoll, hparse]⟩

/-- Witness for C7: a camera field with an undecodable payload is absent
from the processed observation while the numeric field survives. -/
theorem decode_failure_field_absent_witness :
    lookupField (process_cameras (fun _ => none) ["cam"]
      [("x.pos", FieldValue.num 1), ("cam", FieldValue.str "zzzz")]) "cam" = none
  ∧ lookupField (process_cameras (fun _ => none) ["cam"]
      [("x.pos", FieldValue.num 1), ("cam", FieldValue.str "zzzz")]) "x.pos" =
      some (FieldValue.num 1) := by
  constructor
  · exact (decode_failure_field_absent ⟨true, []⟩ false [] (fun _ => none)
      (fun _ => none) ["cam"] rfl).1
      [("x.pos", FieldValue.num 1), ("cam", FieldValue.str "zzzz")] "cam"
      (by decide) (by decide)
  · have h := (decode_failure_field_absent ⟨true, []⟩ false [] (fun _ => none)
      (fun _ => none) ["cam"] rfl).2.1
      [("x.pos", FieldValue.num 1), ("cam", FieldValue.str "zzzz")] "x.pos"
      (by decide)
    rw [h]
    decide

/-! ## Claim C10: connection-state guards on the client interface -/

/-- C10: `connect` raises `DeviceAlreadyConnectedError` exactly when the
client is already connected; `get_observation`, `send_action` and
`disconnect` raise `DeviceNotConnectedError` exactly when it is not
connected (returning the error before any effect); a successful
`disconnect` leaves `is_connected` false. -/
theorem client_connection_guards (s : ClientState) (rk d fo : Bool)
    (action : Obs) (pollError : Bool) (pending : List String)
    (parse : String → Option Obs) (decode : String → Option ℕ)
    (cams : List String) :
    (connect s rk d fo = .error RError.deviceAlreadyConnected ↔
      s._is_connected = true)
  ∧ (get_observation s pollError pending parse decode cams =
      .error RError.deviceNotConnected ↔ s._is_connected = false)
  ∧ (send_action s action = .error RError.deviceNotConnected ↔
      s._is_connected = false)
  ∧ (disconnect s = .error RError.deviceNotConnected ↔
      s._is_connected = false)
  ∧ (∀ s', disconnect s = .ok s' → s'._is_connected = false) := by
  cases hc : s._is_connected with
  | true =>
      refine ⟨by simp [connect, hc], ?_, by simp [send_action, hc],
        by simp [disconnect, hc], ?_⟩
      · cases hpoll : _poll_and_get_latest_message pollError pending with
        | none => simp [get_observation, hc, hpoll]
        | some m =>
            cases hparse : parse m with
            | none => simp [get_observation, hc, hpoll, hparse]
            | some obs => simp [get_observation, hc, hpoll, hparse]
      · intro s' hok
        simp only [disconnect, hc] at hok
        simp only [Bool.not_true, Bool.false_eq_true, if_false,
          Except.ok.injEq] at hok
        rw [← hok]
  | false =>
      refine ⟨?_, by simp [get_observation, hc], by simp [send_action, hc],
        by simp [disconnect, hc], ?_⟩
      · cases rk <;> cases d <;> cases fo <;> simp [connect, hc]
      · intro s' hok
        simp [disconnect, hc] at hok

/-- Witness for C10: disconnecting a connected client yields a state
that reports not connected. -/
theorem client_connection_guards_witness :
    (ClientState.mk false [] : ClientState)._is_connected = false :=
  (client_connection_guards ⟨true, []⟩ true true true [] false []
    (fun _ => none) (fun _ => none) []).2.2.2.2 ⟨false, []⟩ rfl

/-! ## Helper lemmas: the Profile A follower tick -/

theorem followerA_tick_fst (parse : String → Option Obs)
    (encode : ℕ → Option String) (cams : List String) (w : ℚ)
    (s : WatchdogState) (inp : TickInput) :
    (followerA_tick parse encode cams w s inp).1 =
      (watchdog_step w (recv_step parse s inp).1 inp.tCheck).1 := rfl

theorem followerA_tick_snd (parse : String → Option Obs)
    (encode : ℕ → Option String) (cams : List String) (w : ℚ)
    (s : WatchdogState) (inp : TickInput) :
    (followerA_tick parse encode cams w s inp).2 =
      (recv_step parse s inp).2 ++
      (if (watchdog_step w (recv_step parse s inp).1 inp.tCheck).2 then
        [EventA.staleness_warning] else []) ++
      (if inp.sendOk then
        [EventA.observation_sent (encode_cameras encode cams inp.rawObs)]
       else [EventA.observation_dropped]) := rfl

theorem recv_step_stale_fst (parse : String → Option Obs) (s : WatchdogState)
    (inp : TickInput) (h : inp.cmdMsg = none) :
    (recv_step parse s inp).1 = s := by
  unfold recv_step
  rw [h]

theorem staleWarnCount_append (a b : List EventA) :
    staleWarnCount (a ++ b) = staleWarnCount a + staleWarnCount b := by
  simp [staleWarnCount, List.filter_append]

theorem staleWarnCount_recv (parse : String → Option Obs) (s : WatchdogState)
    (inp : TickInput) : staleWarnCount (recv_step parse s inp).2 = 0 := by
  cases hm : inp.cmdMsg with
  | none =>
      cases ha : s.watchdog_active <;>
        simp [recv_step, hm, ha, staleWarnCount, List.filter]
  | some m =>
      cases hp : parse m <;>
        simp [recv_step, hm, hp, staleWarnCount, List.filter]

theorem staleWarnCount_tick (parse : String → Option Obs)
    (encode : ℕ → Option String) (cams : List String) (w : ℚ)
    (s : WatchdogState) (inp : TickInput) :
    staleWarnCount (followerA_tick parse encode cams w s inp).2 =
      if (watchdog_step w (recv_step parse s inp).1 inp.tCheck).2 then 1
      else 0 := by
  rw [followerA_tick_snd, staleWarnCount_append, staleWarnCount_append,
    staleWarnCount_recv]
  cases hw : (watchdog_step w (recv_step parse s inp).1 inp.tCheck).2 <;>
    cases hs : inp.sendOk <;> simp [staleWarnCount]

theorem followerA_run_fst_cons (parse : String → Option Obs)
    (encode : ℕ → Option String) (cams : List String) (w : ℚ)
    (s : WatchdogState) (inp : TickInput) (rest : List TickInput) :
    (followerA_run parse encode cams w s (inp :: rest)).1 =
      (followerA_run parse encode cams w
        (followerA_tick parse encode cams w s inp).1 rest).1 := rfl

theorem followerA_run_count_cons (parse : String → Option Obs)
    (encode : ℕ → Option String) (cams : List String) (w : ℚ)
    (s : WatchdogState) (inp : TickInput) (rest : List TickInput) :
    staleWarnCount (followerA_run parse encode cams w s (inp :: rest)).2 =
      staleWarnCount (followerA_tick parse encode cams w s inp).2 +
      staleWarnCount (followerA_run parse encode cams w
        (followerA_tick parse encode cams w s inp).1 rest).2 := by
  show staleWarnCount ((followerA_tick parse encode cams w s inp).2 ++ _) = _
  exact staleWarnCount_append _ _

theorem followerA_tick_stale_active (parse : String → Option Obs)
    (encode : ℕ → Option String) (cams : List String) (w : ℚ)
    (s : WatchdogState) (inp : TickInput) (h : inp.cmdMsg = none)
    (hact : s.watchdog_active = true) :
    (followerA_tick parse encode cams w s inp).1 = s ∧
    staleWarnCount (followerA_tick parse encode cams w s inp).2 = 0 := by
  constructor
  · rw [followerA_tick_fst, recv_step_stale_fst parse s inp h]
    unfold watchdog_step
    simp [hact]
  · rw [staleWarnCount_tick, recv_step_stale_fst parse s inp h]
    unfold watchdog_step
    simp [hact]

theorem followerA_tick_stale_inactive (parse : String → Option Obs)
    (encode : ℕ → Option String) (cams : List String) (w : ℚ)
    (s : WatchdogState) (inp : TickInput) (h : inp.cmdMsg = none)
    (hact : s.watchdog_active = false) :
    (followerA_tick parse encode cams w s inp).1 =
      (if inp.tCheck - s.last_cmd_time > w / 1000 then
        { s with watchdog_active := true } else s) ∧
    staleWarnCount (followerA_tick parse encode cams w s inp).2 =
      (if inp.tCheck - s.last_cmd_time > w / 1000 then 1 else 0) := by
  constructor
  · rw [followerA_tick_fst, recv_step_stale_fst parse s inp h]
    unfold watchdog_step
    by_cases hb : inp.tCheck - s.last_cmd_time > w / 1000
    · simp [hact, hb]
    · simp [hact, hb]
  · rw [staleWarnCount_tick, recv_step_stale_fst parse s inp h]
    unfold watchdog_step
    by_cases hb : inp.tCheck - s.last_cmd_time > w / 1000
    · simp [hact, hb]
    · simp [hact, hb]

theorem followerA_run_stale_active (parse : String → Option Obs)
    (encode : ℕ → Option String) (cams : List String) (w : ℚ) :
    ∀ (inps : List TickInput) (s : WatchdogState), s.watchdog_active = true →
      (∀ i ∈ inps, i.cmdMsg = none) →
      (followerA_run parse encode cams w s inps).1 = s ∧
      staleWarnCount (followerA_run parse encode cams w s inps).2 = 0 := by
  intro inps
  induction inps with
  | nil => intro s _ _; exact ⟨rfl, rfl⟩
  | cons inp rest ih =>
      intro s hact hstale
      have hmsg : inp.cmdMsg = none := hstale inp (List.mem_cons_self _ _)
      obtain ⟨hts, htc⟩ :=
        followerA_tick_stale_active parse encode cams w s inp hmsg hact
      have hrest := ih s hact (fun i hi => hstale i (List.mem_cons_of_mem _ hi))
      constructor
      · rw [followerA_run_fst_cons, hts]
        exact hrest.1
      · rw [followerA_run_count_cons, htc, hts, hrest.2]

theorem followerA_run_stale_le_one (parse : String → Option Obs)
    (encode : ℕ → Option String) (cams : List String) (w : ℚ) :
    ∀ (inps : List TickInput) (s : WatchdogState),
      (∀ i ∈ inps, i.cmdMsg = none) →
      staleWarnCount (followerA_run parse encode cams w s inps).2 ≤ 1 := by
  intro inps
  induction inps with
  | nil => intro s _; exact Nat.zero_le 1
  | cons inp rest ih =>
      intro s hstale
      have hmsg : inp.cmdMsg = none := hstale inp (List.mem_cons_self _ _)
      have hrest : ∀ i ∈ rest, i.cmdMsg = none :=
        fun i hi => hstale i (List.mem_cons_of_mem _ hi)
      cases hact : s.watchdog_active with
      | true =>
          have h := (followerA_run_stale_active parse encode cams w
            (inp :: rest) s hact hstale).2
          omega
      | false =>
          obtain ⟨hts, htc⟩ :=
            followerA_tick_stale_inactive parse encode cams w s inp hmsg hact
          rw [followerA_run_count_cons, htc, hts]
          by_cases hb : inp.tCheck - s.last_cmd_time > w / 1000
          · rw [if_pos hb, if_pos hb]
            have h0 := (followerA_run_stale_active parse encode cams w rest
              { s with watchdog_active := true } rfl hrest).2
            rw [h0]
          · rw [if_neg hb, if_neg hb]
            have h1 := ih s hrest
            omega

theorem followerA_run_stale_exactly_one (parse : String → Option Obs)
    (encode : ℕ → Option String) (cams : List String) (w : ℚ) :
    ∀ (inps : List TickInput) (s : WatchdogState),
      s.watchdog_active = false →
      (∀ i ∈ inps, i.cmdMsg = none) →
      (∃ i ∈ inps, i.tCheck - s.last_cmd_time > w / 1000) →
      staleWarnCount (followerA_run parse encode cams w s inps).2 = 1 := by
  intro inps
  induction inps with
  | nil =>
      intro s _ _ hex
      obtain ⟨i, hi, _⟩ := hex
      cases hi
  | cons inp rest ih =>
      intro s hact hstale hex
      have hmsg : inp.cmdMsg = none := hstale inp (List.mem_cons_self _ _)
      have hrest : ∀ i ∈ rest, i.cmdMsg = none :=
        fun i hi => hstale i (List.mem_cons_of_mem _ hi)
      obtain ⟨hts, htc⟩ :=
        followerA_tick_stale_inactive parse encode cams w s inp hmsg hact
      rw [followerA_run_count_cons, htc, hts]
      by_cases hb : inp.tCheck - s.last_cmd_time > w / 1000
      · rw [if_pos hb, if_pos hb]
        have h0 := (followerA_run_stale_active parse encode cams w rest
          { s with watchdog_active := true } rfl hrest).2
        rw [h0]
      · rw [if_neg hb, if_neg hb]
        have hex' : ∃ i ∈ rest, i.tCheck - s.last_cmd_time > w / 1000 := by
          obtain ⟨i, hi, hgt⟩ := hex
          rcases List.mem_cons.mp hi with h | h
          · exact absurd (h ▸ hgt) hb
          · exact ⟨i, h, hgt⟩
        rw [ih s hact hrest hex']

/-! ## Claim C3: watchdog edge-triggering -/

/-- C3: in the Profile A follower loop, over any run of ticks in which
no command arrives, the staleness warning is emitted at most once; never
again while the watchdog is already active; exactly once when the
watchdog starts inactive and some tick of the stale interval exceeds
`watchdog_timeout_ms` since the last command; and a tick that receives a
well-formed command (checked within the timeout of its own receive time)
leaves the watchdog cleared, so a later stale interval warns again. -/
theorem watchdog_edge_triggered (parse : String → Option Obs)
    (encode : ℕ → Option String) (cams : List String) (w : ℚ) :
    (∀ (s : WatchdogState) (inps : List TickInput),
      (∀ i ∈ inps, i.cmdMsg = none) →
      staleWarnCount (followerA_run parse encode cams w s inps).2 ≤ 1)
  ∧ (∀ (s : WatchdogState) (inps : List TickInput),
      s.watchdog_active = true → (∀ i ∈ inps, i.cmdMsg = none) →
      staleWarnCount (followerA_run parse encode cams w s inps).2 = 0)
  ∧ (∀ (s : WatchdogState) (inps : List TickInput),
      s.watchdog_active = false → (∀ i ∈ inps, i.cmdMsg = none) →
      (∃ i ∈ inps, i.tCheck - s.last_cmd_time > w / 1000) →
      staleWarnCount (followerA_run parse encode cams w s inps).2 = 1)
  ∧ (∀ (s : WatchdogState) (inp : TickInput) (m : String) (cmd : Obs),
      inp.cmdMsg = some m → parse m = some cmd →
      inp.tCheck - inp.tRecv ≤ w / 1000 →
      (followerA_tick parse encode cams w s inp).1.watchdog_active = false) := by
  refine ⟨?_, ?_, ?_, ?_⟩
  · intro s inps h
    exact followerA_run_stale_le_one parse encode cams w inps s h
  · intro s inps hact h
    exact (followerA_run_stale_active parse encode cams w inps s hact h).2
  · intro s inps hact h hex
    exact followerA_run_stale_exactly_one parse encode cams w inps s hact h hex
  · intro s inp m cmd hm hp hsoon
    rw [followerA_tick_fst]
    have hr : (recv_step parse s inp).1 = ⟨inp.tRecv, false⟩ := by
      simp [recv_step, hm, hp]
    rw [hr]
    unfold watchdog_step
    have hb : ¬ (inp.tCheck - inp.tRecv > w / 1000) := not_lt.mpr hsoon
    simp [hb]

/-- Witness for C3: two stale ticks past the 500 ms timeout warn exactly
once, and a tick that receives a command clears the tripped state. -/
theorem watchdog_edge_triggered_witness :
    staleWarnCount (followerA_run (fun _ => some []) (fun _ => none) [] 500
      ⟨0, false⟩ [⟨none, 0, 1, [], true⟩, ⟨none, 0, 2, [], true⟩]).2 = 1
  ∧ (followerA_tick (fun _ => some []) (fun _ => none) [] 500
      ⟨0, true⟩ ⟨some "cmd", 3, 3, [], true⟩).1.watchdog_active = false := by
  constructor
  · exact (watchdog_edge_triggered (fun _ => some []) (fun _ => none) [] 500).2.2.1
      ⟨0, false⟩ [⟨none, 0, 1, [], true⟩, ⟨none, 0, 2, [], true⟩] rfl
      (by decide) ⟨⟨none, 0, 1, [], true⟩, List.mem_cons_self _ _, by norm_num⟩
  · exact (watchdog_edge_triggered (fun _ => some []) (fun _ => none) [] 500).2.2.2
      ⟨0, true⟩ ⟨some "cmd", 3, 3, [], true⟩ "cmd" [] rfl rfl (by norm_num)

/-! ## Claim C2: handshake before traffic -/

theorem followerA_run_snd_cons (parse : String → Option Obs)
    (encode : ℕ → Option String) (cams : List String) (w : ℚ)
    (s : WatchdogState) (inp : TickInput) (rest : List TickInput) :
    (followerA_run parse encode cams w s (inp :: rest)).2 =
      (followerA_tick parse encode cams w s inp).2 ++
      (followerA_run parse encode cams w
        (followerA_tick parse encode cams w s inp).1 rest).2 := rfl

theorem recv_step_no_handshake (parse : String → Option Obs)
    (s : WatchdogState) (inp : TickInput) :
    EventA.handshake_sent ∉ (recv_step parse s inp).2 := by
  cases hm : inp.cmdMsg with
  | none => cases ha : s.watchdog_active <;> simp [recv_step, hm, ha]
  | some m => cases hp : parse m <;> simp [recv_step, hm, hp]

theorem followerA_tick_no_handshake (parse : String → Option Obs)
    (encode : ℕ → Option String) (cams : List String) (w : ℚ)
    (s : WatchdogState) (inp : TickInput) :
    EventA.handshake_sent ∉ (followerA_tick parse encode cams w s inp).2 := by
  rw [followerA_tick_snd]
  intro hmem
  rcases List.mem_append.mp hmem with h | h
  · rcases List.mem_append.mp h with h' | h'
    · exact recv_step_no_handshake parse s inp h'
    · cases ht : (watchdog_step w (recv_step parse s inp).1 inp.tCheck).2 <;>
        rw [ht] at h' <;> simp at h'
  · cases hs : inp.sendOk <;> rw [hs] at h <;> simp at h

theorem followerA_run_no_handshake (parse : String → Option Obs)
    (encode : ℕ → Option String) (cams : List String) (w : ℚ) :
    ∀ (inps : List TickInput) (s : WatchdogState),
      EventA.handshake_sent ∉ (followerA_run parse encode cams w s inps).2 := by
  intro inps
  induction inps with
  | nil => intro s h; cases h
  | cons inp rest ih =>
      intro s
      rw [followerA_run_snd_cons]
      intro hmem
      rcases List.mem_append.mp hmem with h | h
      · exact followerA_tick_no_handshake parse encode cams w s inp h
      · exact ih _ h

/-- C2 amended: the handshake-before-traffic invariant holds for the
Profile B stream session in both directions — whenever the Profile B
follower processes a command its trace starts with the handshake send,
and whenever the Profile B leader sends a command its trace starts with
the handshake receive — while the Profile A server exchanges no
`HandshakeInfo` at all: its loop can never emit a handshake event. -/
theorem handshake_before_traffic (hsOk : Bool) (parseB : String → Option Obs)
    (lines : List String) (hl : Option String) (actions : List Obs) :
    (∀ cmd, EventB.command_processed cmd ∈ followerB_events hsOk parseB lines →
      (followerB_events hsOk parseB lines).head? = some EventB.handshake_sent)
  ∧ (∀ cmd, EventL.command_sent cmd ∈ leaderB_events hl parseB actions →
      (leaderB_events hl parseB actions).head? = some EventL.handshake_received)
  ∧ (∀ (parse : String → Option Obs) (encode : ℕ → Option String)
      (cams : List String) (w : ℚ) (s : WatchdogState) (inps : List TickInput),
      EventA.handshake_sent ∉ (followerA_run parse encode cams w s inps).2) := by
  refine ⟨?_, ?_, ?_⟩
  · intro cmd hmem
    cases hsOk with
    | false => simp [followerB_events] at hmem
    | true => simp [followerB_events]
  · intro cmd hmem
    cases hl with
    | none => simp [leaderB_events] at hmem
    | some l =>
        cases hp : parseB l with
        | none => simp [leaderB_events, hp] at hmem
        | some h => simp [leaderB_events, hp]
  · intro parse encode cams w s inps
    exact followerA_run_no_handshake parse encode cams w inps s

/-- Witness for C2 (amended): a Profile B follower session that accepts
one well-formed command line has the handshake send as its first event,
and the corresponding leader trace starts with the handshake receive. -/
theorem handshake_before_traffic_witness :
    (followerB_events true (fun _ => some []) ["line"]).head? =
      some EventB.handshake_sent
  ∧ (leaderB_events (some "hs") (fun _ => some []) [[]]).head? =
      some EventL.handshake_received := by
  constructor
  · exact (handshake_before_traffic true (fun _ => some []) ["line"]
      (some "hs") [[]]).1 [] (by decide)
  · exact (handshake_before_traffic true (fun _ => some []) ["line"]
      (some "hs") [[]]).2.1 [] (by decide)

/-- Counterexample for C2 as stated: in a Profile A session the server
transmits an Observation in its very first tick while no
`HandshakeInfo` is ever sent — the trace of a one-tick run contains an
observation send and cannot contain a handshake event. -/
theorem profileA_observation_without_handshake :
    EventA.observation_sent [("x.pos", FieldValue.num 1)] ∈
      (followerA_run (fun _ => none) (fun _ => none) [] 500 ⟨0, false⟩
        [⟨none, 0, 0, [("x.pos", FieldValue.num 1)], true⟩]).2
  ∧ EventA.handshake_sent ∉
      (followerA_run (fun _ => none) (fun _ => none) [] 500 ⟨0, false⟩
        [⟨none, 0, 0, [("x.pos", FieldValue.num 1)], true⟩]).2 := by
  constructor
  · rw [followerA_run_snd_cons, followerA_tick_snd]
    refine List.mem_append.mpr (Or.inl (List.mem_append.mpr (Or.inr ?_)))
    simp [encode_cameras]
  · exact followerA_run_no_handshake (fun _ => none) (fun _ => none) [] 500
      [⟨none, 0, 0, [("x.pos", FieldValue.num 1)], true⟩] ⟨0, false⟩

/-! ## Claim C4: server-side camera encode failure -/

theorem encode_cameras_cons (encode : ℕ → Option String) (c : String)
    (rest : List String) (obs : Obs) :
    encode_cameras encode (c :: rest) obs =
      encode_cameras encode rest (encode_camera_field encode obs c) := rfl

theorem encode_camera_field_not_frame (encode : ℕ → Option String)
    (obs : Obs) (cam : String)
    (h : ∀ f, lookupField obs cam ≠ some (FieldValue.frame f)) :
    encode_camera_field encode obs cam = obs := by
  unfold encode_camera_field
  cases hl : lookupField obs cam with
  | none => rfl
  | some v =>
      cases v with
      | num q => rfl
      | str t => rfl
      | frame f => exact absurd hl (h f)

theorem encode_camera_field_lookup_ne (encode : ℕ → Option String)
    (obs : Obs) (c k : String) (hck : c ≠ k) :
    lookupField (encode_camera_field encode obs c) k = lookupField obs k := by
  unfold encode_camera_field
  cases hl : lookupField obs c with
  | none => rfl
  | some v =>
      cases v with
      | num q => rfl
      | str t => rfl
      | frame f =>
          show lookupField (match encode f with
            | some b64 => updateField obs c (FieldValue.str b64)
            | none => updateField obs c (FieldValue.str "")) k =
            lookupField obs k
          cases he : encode f with
          | some b => exact lookupField_updateField_ne obs c k _ hck
          | none => exact lookupField_updateField_ne obs c k _ hck

theorem encode_camera_field_frame (encode : ℕ → Option String) (obs : Obs)
    (cam : String) (f : ℕ)
    (hl : lookupField obs cam = some (FieldValue.frame f)) :
    encode_camera_field encode obs cam =
      updateField obs cam (FieldValue.str (match encode f with
        | some b => b
        | none => "")) := by
  unfold encode_camera_field
  rw [hl]
  show (match encode f with
    | some b64 => updateField obs cam (FieldValue.str b64)
    | none => updateField obs cam (FieldValue.str "")) = _
  cases he : encode f with
  | some b => rfl
  | none => rfl

theorem encode_cameras_not_mem (encode : ℕ → Option String) :
    ∀ (cams : List String) (obs : Obs) (k : String), k ∉ cams →
      lookupField (encode_cameras encode cams obs) k = lookupField obs k := by
  intro cams
  induction cams with
  | nil => intro obs k _; rfl
  | cons c rest ih =>
      intro obs k hk
      have hck : c ≠ k := fun h => hk (h ▸ List.mem_cons_self c rest)
      have hkrest : k ∉ rest := fun h => hk (List.mem_cons_of_mem c h)
      rw [encode_cameras_cons]
      exact (ih _ k hkrest).trans (encode_camera_field_lookup_ne encode obs c k hck)

theorem encode_cameras_preserves_str (encode : ℕ → Option String) :
    ∀ (cams : List String) (obs : Obs) (cam : String) (t : String),
      lookupField obs cam = some (FieldValue.str t) →
      lookupField (encode_cameras encode cams obs) cam =
        some (FieldValue.str t) := by
  intro cams
  induction cams with
  | nil => intro obs cam t h; exact h
  | cons c rest ih =>
      intro obs cam t h
      rw [encode_cameras_cons]
      by_cases hc : c = cam
      · subst hc
        rw [encode_camera_field_not_frame encode obs c
          (fun f hf => by rw [h] at hf; cases hf)]
        exact ih obs c t h
      · exact ih _ cam t
          ((encode_camera_field_lookup_ne encode obs c cam hc).trans h)

theorem encode_cameras_frame_result (encode : ℕ → Option String) :
    ∀ (cams : List String) (obs : Obs) (cam : String) (f : ℕ),
      cam ∈ cams → lookupField obs cam = some (FieldValue.frame f) →
      lookupField (encode_cameras encode cams obs) cam =
        some (FieldValue.str (match encode f with
          | some b => b
          | none => "")) := by
  intro cams
  induction cams with
  | nil => intro obs cam f hmem; cases hmem
  | cons c rest ih =>
      intro obs cam f hmem hl
      rw [encode_cameras_cons]
      by_cases hc : c = cam
      · subst hc
        rw [encode_camera_field_frame encode obs c f hl]
        exact encode_cameras_preserves_str encode rest _ c _
          (lookupField_updateField_self obs c _)
      · have hmem' : cam ∈ rest := by
          rcases List.mem_cons.mp hmem with h | h
          · exact absurd h.symm hc
          · exact h
        exact ih _ cam f hmem'
          ((encode_camera_field_lookup_ne encode obs c cam hc).trans hl)

/-- C4 amended: in the follower tick, a camera field whose raw frame
fails to encode is kept in the outgoing Observation with the
empty-string payload (which the receiving client treats as
field-absent); a successfully encoded frame becomes its base64 string;
fields outside the camera set are sent unchanged; and the tick still
completes, sending the processed observation whenever the non-blocking
send succeeds. -/
theorem encode_failure_empty_string (parse : String → Option Obs)
    (encode : ℕ → Option String) (cams : List String) (w : ℚ) :
    (∀ (obs : Obs) (cam : String) (f : ℕ), cam ∈ cams →
      lookupField obs cam = some (FieldValue.frame f) → encode f = none →
      lookupField (encode_cameras encode cams obs) cam =
        some (FieldValue.str ""))
  ∧ (∀ (obs : Obs) (cam : String) (f : ℕ) (b : String), cam ∈ cams →
      lookupField obs cam = some (FieldValue.frame f) → encode f = some b →
      lookupField (encode_cameras encode cams obs) cam =
        some (FieldValue.str b))
  ∧ (∀ (obs : Obs) (k : String), k ∉ cams →
      lookupField (encode_cameras encode cams obs) k = lookupField obs k)
  ∧ (∀ (s : WatchdogState) (inp : TickInput), inp.sendOk = true →
      EventA.observation_sent (encode_cameras encode cams inp.rawObs) ∈
        (followerA_tick parse encode cams w s inp).2) := by
  refine ⟨?_, ?_, ?_, ?_⟩
  · intro obs cam f hmem hl he
    have h := encode_cameras_frame_result encode cams obs cam f hmem hl
    rw [he] at h
    exact h
  · intro obs cam f b hmem hl he
    have h := encode_cameras_frame_result encode cams obs cam f hmem hl
    rw [he] at h
    exact h
  · intro obs k hk
    exact encode_cameras_not_mem encode cams obs k hk
  · intro s inp hsend
    rw [followerA_tick_snd, hsend]
    exact List.mem_append.mpr (Or.inr (by simp))

/-- Witness for C4 (amended): with one camera whose encode fails, the
outgoing observation maps that camera to the empty string and sends the
numeric field unchanged. -/
theorem encode_failure_empty_string_witness :
    lookupField (encode_cameras (fun _ => none) ["cam"]
      [("x.pos", FieldValue.num 5), ("cam", FieldValue.frame 0)]) "cam" =
      some (FieldValue.str "")
  ∧ lookupField (encode_cameras (fun _ => none) ["cam"]
      [("x.pos", FieldValue.num 5), ("cam", FieldValue.frame 0)]) "x.pos" =
      some (FieldValue.num 5) := by
  constructor
  · exact (encode_failure_empty_string (fun _ => none) (fun _ => none)
      ["cam"] 500).1 [("x.pos", FieldValue.num 5), ("cam", FieldValue.frame 0)]
      "cam" 0 (List.mem_cons_self _ _) rfl rfl
  · have h := (encode_failure_empty_string (fun _ => none) (fun _ => none)
      ["cam"] 500).2.2.1
      [("x.pos", FieldValue.num 5), ("cam", FieldValue.frame 0)] "x.pos"
      (by decide)
    rw [h]
    rfl

/-- Counterexample for C4 as stated: the failing camera field is not
omitted from the outgoing Observation — the server sets it to the empty
string, so the key is still present in the sent mapping. -/
theorem encode_failure_field_present_counterexample :
    lookupField (encode_cameras (fun _ => none) ["cam"]
      [("x.pos", FieldValue.num 5), ("cam", FieldValue.frame 0)]) "cam" ≠
      none
  ∧ lookupField (encode_cameras (fun _ => none) ["cam"]
      [("x.pos", FieldValue.num 5), ("cam", FieldValue.frame 0)]) "cam" =
      some (FieldValue.str "") := by
  constructor
  · intro h
    simp [encode_cameras, lookupField, updateField] at h
  · rfl

/-! ## Claim C8: drift-compensated tick timing -/

theorem loop_finish_time_no_drift (f : ℚ) :
    ∀ (works : List ℚ) (start : ℚ), (∀ x ∈ works, 0 ≤ x ∧ x ≤ 1 / f) →
      loop_finish_time f start works = start + works.length * (1 / f) := by
  intro works
  induction works with
  | nil => intro start _; simp [loop_finish_time]
  | cons x rest ih =>
      intro start hw
      have hx := hw x (List.mem_cons_self _ _)
      have hsleep : follower_tick_sleep f start (start + x) = 1 / f - x := by
        unfold follower_tick_sleep
        have harg : 1 / f - (start + x - start) = 1 / f - x := by ring
        rw [harg]
        exact max_eq_left (by linarith [hx.2])
      have hstep : start + x + follower_tick_sleep f start (start + x) =
          start + 1 / f := by
        rw [hsleep]; ring
      show loop_finish_time f (start + x + follower_tick_sleep f start (start + x))
        rest = _
      rw [hstep, ih (start + 1 / f)
        (fun y hy => hw y (List.mem_cons_of_mem _ hy))]
      simp [List.length_cons]
      ring

/-- C8: both steady-state loops wait exactly `max(1/f - elapsed, 0)` at
the end of each tick, with `elapsed` measured from the tick's own start
timestamp; a tick whose compute cost reaches or exceeds the period waits
zero; each tick's total duration is `max(1/f, elapsed)`; and over any
run whose per-tick compute cost stays within the period the loop
finishes exactly `K/f` after its start — no cumulative drift and no
separate drift accumulator. -/
theorem drift_compensated_timing (f start now : ℚ) (works : List ℚ) :
    follower_tick_sleep f start now = max (1 / f - (now - start)) 0
  ∧ leader_tick_wait f start now = max (1 / f - (now - start)) 0
  ∧ (now - start ≥ 1 / f → follower_tick_sleep f start now = 0 ∧
      leader_tick_wait f start now = 0)
  ∧ (now - start) + follower_tick_sleep f start now = max (1 / f) (now - start)
  ∧ ((∀ x ∈ works, 0 ≤ x ∧ x ≤ 1 / f) →
      loop_finish_time f start works = start + works.length * (1 / f)) := by
  refine ⟨rfl, rfl, ?_, ?_, ?_⟩
  · intro h
    constructor
    · exact max_eq_right (by linarith)
    · exact max_eq_right (by linarith)
  · by_cases he : now - start ≤ 1 / f
    · have h1 : follower_tick_sleep f start now = 1 / f - (now - start) :=
        max_eq_left (by linarith)
      rw [h1, max_eq_left he]
      ring
    · push_neg at he
      have h1 : follower_tick_sleep f start now = 0 :=
        max_eq_right (by linarith)
      rw [h1, max_eq_right (le_of_lt he)]
      ring
  · exact loop_finish_time_no_drift f works start

/-- Witness for C8: at 30 Hz with two zero-cost ticks the loop finishes
exactly two periods after its start, and a tick that overran its period
sleeps zero. -/
theorem drift_compensated_timing_witness :
    loop_finish_time 30 0 [0, 0] =
      0 + (([0, 0] : List ℚ).length : ℚ) * (1 / 30)
  ∧ follower_tick_sleep 30 0 1 = 0 := by
  constructor
  · exact (drift_compensated_timing 30 0 0 [0, 0]).2.2.2.2
      (fun x hx => by
        rcases List.mem_cons.mp hx with h | h
        · rw [h]; exact ⟨le_refl 0, by norm_num⟩
        · rcases List.mem_cons.mp h with h' | h'
          · rw [h']; exact ⟨le_refl 0, by norm_num⟩
          · cases h')
  · exact ((drift_compensated_timing 30 0 1 []).2.2.1 (by norm_num)).1

/-! ## Claim C9: loop termination and cleanup -/

/-- C9 amended: the Profile A follower loop keeps running exactly while
no interrupt or escaping error occurred and the session duration is
still below `connection_time_s` — so it also terminates when the
configured session time expires, not only on interrupt or transport
failure — and on every exit cause the `finally` blocks release the
robot and all transport resources, in both wire profiles. -/
theorem loop_termination_cleanup :
    (∀ (d c : ℚ) (i ft : Bool),
      loop_continues d c i ft = false ↔ (i = true ∨ ft = true ∨ c ≤ d))
  ∧ (∀ cause₁ cause₂ : ExitCause,
      followerA_cleanup cause₁ = followerA_cleanup cause₂)
  ∧ (∀ cause : ExitCause, "robot.disconnect" ∈ followerA_cleanup cause ∧
      "discovery_socket.close" ∈ followerA_cleanup cause ∧
      "zmq_observation_socket.close" ∈ followerA_cleanup cause ∧
      "zmq_cmd_socket.close" ∈ followerA_cleanup cause ∧
      "zmq_context.term" ∈ followerA_cleanup cause)
  ∧ (∀ interrupted : Bool, "conn.close" ∈ followerB_cleanup interrupted ∧
      "server.close" ∈ followerB_cleanup interrupted ∧
      "robot.disconnect" ∈ followerB_cleanup interrupted) := by
  refine ⟨?_, ?_, ?_, ?_⟩
  · intro d c i ft
    cases i <;> cases ft <;>
      simp [loop_continues, not_lt]
  · intro cause₁ cause₂
    rfl
  · intro cause
    refine ⟨?_, ?_, ?_, ?_, ?_⟩ <;> (cases cause <;> decide)
  · intro interrupted
    refine ⟨?_, ?_, ?_⟩ <;> (cases interrupted <;> decide)

/-- Witness for C9 (amended): on the session-time-expired exit cause the
cleanup still disconnects the robot. -/
theorem loop_termination_cleanup_witness :
    "robot.disconnect" ∈ followerA_cleanup ExitCause.sessionTimeExpired :=
  (loop_termination_cleanup.2.2.1 ExitCause.sessionTimeExpired).1

/-- Counterexample for C9 as stated: with no interrupt and no transport
error, the Profile A loop still exits once the session duration reaches
`connection_time_s` (default 30 s) — termination is not only by
shutdown signal or unrecoverable error. -/
theorem session_time_exit_counterexample :
    followerA_exit_cause 30 30 false false = some ExitCause.sessionTimeExpired
  ∧ loop_continues 30 30 false false = false
  ∧ followerA_exit_cause 30 30 false false ≠ some ExitCause.interrupt
  ∧ followerA_exit_cause 30 30 false false ≠ some ExitCause.fatalError := by
  have h30 : ¬ ((30 : ℚ) < 30) := lt_irrefl 30
  have hle : (30 : ℚ) ≤ 30 := le_refl 30
  refine ⟨?_, ?_, ?_, ?_⟩
  · simp [followerA_exit_cause, hle]
  · simp [loop_continues, h30]
  · simp [followerA_exit_cause, hle]
  · simp [followerA_exit_cause, hle]

end LeRobot
